import Mathlib

/-!
Verification of the route-synthesis and route-config module
(`semantic_router/route.py`) against its natural-language specification.

Python strings are modelled as `String` (for dictionary keys and route
fields) or as `List Char` (for the tag-extraction and signature-rendering
functions, where we reason about substring occurrences).  JSON values
produced by `json.loads` / `yaml.safe_load` are modelled by the inductive
type `JValue`; a failed parse is modelled as `none : Option JValue`
(the parsers themselves are Python standard-library collaborators).
Raised Python exceptions are modelled with `Except PyError`.
-/

/-- Value produced by `json.loads`: null, booleans, numbers, strings,
arrays, and objects.  Objects are association lists whose keys are unique
(Python dicts); numeric values are modelled as integers, which is enough
for every claim (the only fact used about numbers is that they support
neither `in` nor `**`-unpacking). -/
inductive JValue where
  | null : JValue
  | bool : Bool → JValue
  | num : Int → JValue
  | str : String → JValue
  | arr : List JValue → JValue
  | obj : List (String × JValue) → JValue

/-- Python exceptions raised (not caught) by the code under analysis.
`typeError` models `TypeError` (e.g. `"name" in 5`, or `cls(**x)` on a
non-mapping); `valueError` models `ValueError` with its message;
`exception` models a bare `Exception` with its message; `validationError`
models a pydantic validation failure on `Route(**data)`;
`jsonDecodeError` models `json.JSONDecodeError` escaping from
`json.load`. -/
inductive PyError where
  | typeError : PyError
  | valueError : String → PyError
  | exception : String → PyError
  | validationError : PyError
  | jsonDecodeError : PyError
deriving DecidableEq, Repr

/-- Key membership in a Python dict: `key in d` over the dict's keys. -/
def hasKey (kvs : List (String × JValue)) (key : String) : Bool :=
  kvs.any (fun kv => kv.1 == key)

/-- Python `==` between a `str` and an arbitrary JSON value: true exactly
when the value is the same string (a str never equals a number, bool,
None, list or dict). -/
def pyStrEq (key : String) : JValue → Bool
  | .str s => key == s
  | _ => false

/-- Leftmost occurrence search: the least index `i` such that `pat` is a
prefix of `t.drop i`, if any.  This is the primitive behind both the
model of Python's substring test `key in s` and the model of
`re.search`. -/
def firstOcc (pat : List Char) : List Char → Option Nat
  | [] => if pat.isEmpty then some 0 else none
  | c :: cs => if pat.isPrefixOf (c :: cs) then some 0 else (firstOcc pat cs).map (· + 1)

/-- Python substring test `pat in t` for strings. -/
def isSubstr (pat t : List Char) : Bool :=
  (firstOcc pat t).isSome

/-- Python membership `key in v` for a `str` key, as used by
`key not in item` in `is_valid` (route.py lines 21 and 29):
on a dict it tests the keys, on a list it tests `==` against the
elements, on a str it is the substring test, and on numbers, booleans
and `None` it raises `TypeError`. -/
def pyContains (key : String) : JValue → Except PyError Bool
  | .obj kvs => .ok (hasKey kvs key)
  | .arr xs => .ok (xs.any (pyStrEq key))
  | .str s => .ok (isSubstr key.data s.data)
  | _ => .error .typeError

/-- The `required_keys` list of `is_valid` (route.py line 17). -/
def requiredKeys : List String := ["name", "utterances"]

/-- The list comprehension
`[key for key in required_keys if key not in item]` (route.py
lines 21 and 29): membership is evaluated key by key, and a raised
`TypeError` propagates. -/
def missingKeys : List String → JValue → Except PyError (List String)
  | [], _ => .ok []
  | k :: ks, v =>
    match pyContains k v with
    | .error e => .error e
    | .ok c =>
      match missingKeys ks v with
      | .error e => .error e
      | .ok rest => .ok (if c then rest else k :: rest)

/-- The `for item in output_json` loop of `is_valid` (route.py lines
20-27): return `False` at the first item with missing keys, `True` when
the loop completes. -/
def validateItems : List JValue → Except PyError Bool
  | [] => .ok true
  | item :: rest =>
    match missingKeys requiredKeys item with
    | .error e => .error e
    | .ok mk => if mk.isEmpty then validateItems rest else .ok false

/-- `is_valid` (route.py lines 14-39).  The argument is the result of
`json.loads(route_config)`: `none` models a `json.JSONDecodeError`,
which the function catches, logging and returning `False`.  A list is
checked item by item; any non-list value is checked directly with
`key not in output_json`.  A `TypeError` raised by the membership test
is not caught and propagates. -/
def is_valid : Option JValue → Except PyError Bool
  | none => .ok false
  | some (.arr items) => validateItems items
  | some v =>
    match missingKeys requiredKeys v with
    | .error e => .error e
    | .ok mk => .ok mk.isEmpty

/-- The `Route` pydantic model (route.py lines 42-45): `name : str`,
`utterances : list[str]`, `description : str | None = None`. -/
structure Route where
  name : String
  utterances : List String
  description : Option String
deriving DecidableEq, Repr

/-- `Route().dict()` as used by `Route.to_dict` (route.py lines 47-48):
a dict with the three declared fields in declaration order, `None`
serialized as JSON null. -/
def Route.toDict (r : Route) : JValue :=
  .obj [("name", .str r.name),
        ("utterances", .arr (r.utterances.map JValue.str)),
        ("description", match r.description with
                        | some d => JValue.str d
                        | none => JValue.null)]

/-- Coercion of one JSON value to a `str` field value.  Modelled from the
spec: pydantic validates each utterance as a string. -/
def asStr : JValue → Except PyError String
  | .str s => .ok s
  | _ => .error .validationError

/-- A Python list comprehension applying a fallible constructor to each
element in order; the first raised exception propagates. -/
def mapExcept {α : Type} (f : JValue → Except PyError α) : List JValue → Except PyError (List α)
  | [] => .ok []
  | x :: xs =>
    match f x with
    | .error e => .error e
    | .ok r =>
      match mapExcept f xs with
      | .error e => .error e
      | .ok rs => .ok (r :: rs)

/-- `Route.from_dict(data)`, i.e. `cls(**data)` (route.py lines 53-55).
`**data` on a non-mapping raises `TypeError`.  Modelled from the spec
for the pydantic part: `name` must be a string, `utterances` a list of
strings, `description` an optional string (absent or null meaning
`None`); a missing or ill-typed required field is a validation error. -/
def Route.fromDict : JValue → Except PyError Route
  | .obj kvs =>
    match kvs.lookup "name" with
    | some (.str nm) =>
      (match kvs.lookup "utterances" with
       | some (.arr xs) =>
         (match mapExcept asStr xs with
          | .error e => .error e
          | .ok us =>
            match kvs.lookup "description" with
            | some (.str d) => .ok ⟨nm, us, some d⟩
            | some .null => .ok ⟨nm, us, none⟩
            | none => .ok ⟨nm, us, none⟩
            | some _ => .error .validationError)
       | some _ => .error .validationError
       | none => .error .validationError)
    | some _ => .error .validationError
    | none => .error .validationError
  | _ => .error .typeError

/-- Python iteration `for route in routes` over a JSON value as done in
`RouteConfig.from_file` (route.py line 195): a list yields its elements,
a dict yields its keys (as strings), a str yields its one-character
substrings, and numbers, booleans and `None` raise `TypeError`. -/
def pyIter : JValue → Except PyError (List JValue)
  | .arr xs => .ok xs
  | .obj kvs => .ok (kvs.map (fun kv => JValue.str kv.1))
  | .str s => .ok (s.data.map (fun c => JValue.str (String.mk [c])))
  | _ => .error .typeError

/-- The `RouteConfig` aggregate (route.py lines 168-232): an in-memory
list of routes. -/
structure RouteConfig where
  routes : List Route
deriving DecidableEq, Repr

/-- The `for route in self.routes` lookup loop of `RouteConfig.get`
(route.py lines 221-225): first match wins, exhaustion raises
`Exception`. -/
def getLoop : List Route → String → Except PyError Route
  | [], nm => .error (.exception ("Route \x60" ++ nm ++ "\x60 not found"))
  | r :: rest, nm => if r.name == nm then .ok r else getLoop rest nm

/-- `RouteConfig.get` (route.py lines 221-225). -/
def RouteConfig.get (rc : RouteConfig) (nm : String) : Except PyError Route :=
  getLoop rc.routes nm

/-- `RouteConfig.remove` (route.py lines 227-232): when the name is
absent it only logs an error and leaves the list unchanged; otherwise it
keeps exactly the routes with a different name. -/
def RouteConfig.remove (rc : RouteConfig) (nm : String) : RouteConfig :=
  if (rc.routes.map Route.name).contains nm then
    ⟨rc.routes.filter (fun r => r.name != nm)⟩
  else rc

/-- `RouteConfig.add` (route.py lines 217-219): unconditional append. -/
def RouteConfig.add (rc : RouteConfig) (r : Route) : RouteConfig :=
  ⟨rc.routes ++ [r]⟩

/-- The body of `RouteConfig.from_file` shared by the `.json` and
`.yaml`/`.yml` branches (route.py lines 193-198).  The argument is the
parsed file content (`none` when `json.load`/`yaml.safe_load` raises).
The code re-serializes with `json.dumps` and re-parses inside
`is_valid`; since serialization of JSON-representable data round-trips,
this is `is_valid` applied to the same value.  On success it builds
`[Route.from_dict(route) for route in routes]` — note the iteration is
`pyIter`, which on a dict yields its keys. -/
def fromFileParsed (parsed : Option JValue) : Except PyError RouteConfig :=
  match parsed with
  | none => .error .jsonDecodeError
  | some routes =>
    match is_valid (some routes) with
    | .error e => .error e
    | .ok true =>
      (match pyIter routes with
       | .error e => .error e
       | .ok items =>
         match mapExcept Route.fromDict items with
         | .error e => .error e
         | .ok rs => .ok ⟨rs⟩)
    | .ok false => .error (.exception "Invalid config JSON or YAML")

/-- `RouteConfig.from_file` (route.py lines 178-198): the extension
(computed by `os.path.splitext`, a collaborator, and passed here
directly) selects the parser; any other extension raises `ValueError`
before the content is even parsed. -/
def RouteConfig.from_file (ext : String) (parsed : Option JValue) : Except PyError RouteConfig :=
  if ext = ".json" then fromFileParsed parsed
  else if ext = ".yaml" ∨ ext = ".yml" then fromFileParsed parsed
  else .error (.valueError "Unsupported file type. Only .json and .yaml are supported")

/-- `RouteConfig.to_file` (route.py lines 203-215): on a supported
extension the serialized file content is `self.to_dict()`, the list of
the routes' dicts (`json.dump`/`yaml.safe_dump` of JSON-representable
data round-trips, so the written content is modelled by the value
itself); any other extension raises `ValueError`. -/
def RouteConfig.to_file (rc : RouteConfig) (ext : String) : Except PyError JValue :=
  if ext = ".json" then .ok (.arr (rc.routes.map Route.toDict))
  else if ext = ".yaml" ∨ ext = ".yml" then .ok (.arr (rc.routes.map Route.toDict))
  else .error (.valueError "Unsupported file type. Only .json and .yaml are supported")

/-- The validation gate at the end of `Route._agenerate_dynamic_route`
(route.py lines 163-165): `if is_valid(route_config): return
Route.from_dict(json.loads(route_config))`, else raise
`Exception("No config generated")`.  The argument is the parse of the
extracted config string. -/
def acceptConfig (parsed : Option JValue) : Except PyError Route :=
  match is_valid parsed with
  | .error e => .error e
  | .ok true =>
    (match parsed with
     | some j => Route.fromDict j
     | none => .error .jsonDecodeError)
  | .ok false => .error (.exception "No config generated")

/-- The literal characters of the opening tag `<config>`. -/
def openTag : List Char := ['<', 'c', 'o', 'n', 'f', 'i', 'g', '>']

/-- The literal characters of the closing tag `</config>`. -/
def closeTag : List Char := ['<', '/', 'c', 'o', 'n', 'f', 'i', 'g', '>']

/-- Whitespace as removed by Python's `str.strip()` (ASCII part:
space, tab, newline, carriage return, vertical tab, form feed). -/
def isPySpace (c : Char) : Bool :=
  c == ' ' || c == '\t' || c == '\n' || c == '\x0d' || c == '\x0b' || c == '\x0c'

/-- Python `str.strip()`: drop leading and trailing whitespace. -/
def pyStrip (l : List Char) : List Char :=
  ((l.dropWhile isPySpace).reverse.dropWhile isPySpace).reverse

/-- `Route._parse_route_config` (route.py lines 98-108):
`re.search(r"<config>(.*?)</config>", config, re.DOTALL)`.  The match
starts at the leftmost occurrence of `<config>` that is followed by a
later `</config>`; the non-greedy group captures everything up to the
first `</config>` after the opening tag.  Since `</config>` cannot
occur after a later `<config>` occurrence without also occurring after
the first one, searching from the first `<config>` is equivalent.  On
success the captured group is stripped; otherwise `ValueError` is
raised. -/
def parse_route_config (config : List Char) : Except PyError (List Char) :=
  match firstOcc openTag config with
  | some i =>
    (match firstOcc closeTag ((config.drop (i + openTag.length))) with
     | some j => .ok (pyStrip ((config.drop (i + openTag.length)).take j))
     | none => .error (.valueError "No <config></config> tags found in the output."))
  | none => .error (.valueError "No <config></config> tags found in the output.")

/-- One declared field or parameter, as enumerated by reflection
(`item.__annotations__` / `item.__fields__` for a pydantic model,
`inspect.signature` for a callable): its name, the name of its type,
and — when the Python default value is truthy — the `repr` of that
default. -/
structure FieldInfo where
  name : List Char
  typeName : List Char
  defaultRepr : Option (List Char)

/-- One rendered signature entry of `Route._get_schema` (route.py lines
74-82): `"{field_name}: {type} = {default_repr}"` when the default is
truthy, `"{field_name}: {type}"` otherwise. -/
def signaturePart (f : FieldInfo) : List Char :=
  match f.defaultRepr with
  | some d => f.name ++ (": ").data ++ f.typeName ++ (" = ").data ++ d
  | none => f.name ++ (": ").data ++ f.typeName

/-- Python `sep.join(parts)`. -/
def joinSep (sep : List Char) : List (List Char) → List Char
  | [] => []
  | [x] => x
  | x :: y :: rest => x ++ sep ++ joinSep sep (y :: rest)

/-- The pydantic-model branch of `Route._get_schema` (route.py lines
68-88): `"(" + ", ".join(signature_parts) + ") -> str"`. -/
def modelSignature (fields : List FieldInfo) : List Char :=
  ("(").data ++ joinSep ((", ").data) (fields.map signaturePart) ++ (") -> str").data

/-- The callable branch of `Route._get_schema` (route.py lines 89-95).
Modelled from the spec: `str(inspect.signature(item))` — reflection
over the Python standard library — renders the formal parameters as
`"(name: type [= default], ...)"` followed by the return annotation
when one is present. -/
def callableSignature (params : List FieldInfo) (ret : Option (List Char)) : List Char :=
  ("(").data ++ joinSep ((", ").data) (params.map signaturePart) ++
    ((")").data ++ (match ret with
                    | some r => (" -> ").data ++ r
                    | none => []))

/-- The two input shapes accepted by `Route._get_schema` (route.py line
67): a pydantic model instance or a callable, each reduced by
reflection to its list of declared parameters (and, for a callable, an
optional return annotation). -/
inductive SchemaItem where
  | model : List FieldInfo → SchemaItem
  | callable : List FieldInfo → Option (List Char) → SchemaItem

/-- The declared parameters of either schema input shape. -/
def SchemaItem.params : SchemaItem → List FieldInfo
  | .model fields => fields
  | .callable ps _ => ps

/-- The `signature` entry of the schema produced by `Route._get_schema`
for either input shape. -/
def getSchemaSignature : SchemaItem → List Char
  | .model fields => modelSignature fields
  | .callable ps ret => callableSignature ps ret

/-- Number of positions at which `pat` occurs as a substring of `t`. -/
def countOcc (pat t : List Char) : Nat :=
  ((List.range t.length).filter (fun i => pat.isPrefixOf (t.drop i))).length

/-- `pat` occurs in `t` starting at index `i`. -/
def occursAt (pat t : List Char) (i : Nat) : Prop :=
  pat.isPrefixOf (t.drop i) = true

/-- A `<config>...</config>` tag pair occurs with the opening tag at
index `i`: the closing tag occurs somewhere after the opening tag
ends. -/
def tagPairAt (t : List Char) (i : Nat) : Prop :=
  occursAt openTag t i ∧ ∃ j, occursAt closeTag (t.drop (i + openTag.length)) j

/-- The spec's shape contract, stated in the spec's own words: the
parsed payload is a single mapping, or a list of mappings. -/
def isMapping : JValue → Bool
  | .obj _ => true
  | _ => false

/-- The spec's shape contract for a whole payload: a single mapping or a
list of mappings. -/
def isMappingShape : JValue → Bool
  | .obj _ => true
  | .arr xs => xs.all isMapping
  | _ => false

/-- Both required keys are reported present by Python membership, for
the single value or for every element of a list.  This is the honest
statement of what `is_valid` returning `True` guarantees. -/
def requiredPresent : JValue → Prop
  | .arr items => ∀ x ∈ items,
      pyContains "name" x = .ok true ∧ pyContains "utterances" x = .ok true
  | v => pyContains "name" v = .ok true ∧ pyContains "utterances" v = .ok true

/-! ### Substring and occurrence lemmas -/

/-- `isPrefixOf` agrees with append decomposition. -/
theorem isPrefixOf_iff_append (l₁ l₂ : List Char) :
    l₁.isPrefixOf l₂ = true ↔ ∃ t, l₁ ++ t = l₂ := by
  induction l₁ generalizing l₂ with
  | nil => simp [List.isPrefixOf]
  | cons a as ih =>
    cases l₂ with
    | nil => simp [List.isPrefixOf]
    | cons b bs =>
      simp only [List.isPrefixOf, Bool.and_eq_true, beq_iff_eq, ih, List.cons_append,
        List.cons.injEq]
      exact ⟨fun ⟨h1, t, h2⟩ => ⟨t, h1, h2⟩, fun ⟨t, h1, h2⟩ => ⟨h1, t, h2⟩⟩

/-- A list is a prefix of itself followed by anything. -/
theorem isPrefixOf_append_self (l r : List Char) : l.isPrefixOf (l ++ r) = true :=
  (isPrefixOf_iff_append l (l ++ r)).mpr ⟨r, rfl⟩

/-- Soundness of `firstOcc`: a reported index is an occurrence. -/
theorem firstOcc_sound {pat t : List Char} {i : Nat} (h : firstOcc pat t = some i) :
    pat.isPrefixOf (t.drop i) = true := by
  induction t generalizing i with
  | nil =>
    by_cases he : pat.isEmpty = true
    · have hp : pat = [] := by simpa [List.isEmpty_iff] using he
      simp [firstOcc, he] at h
      subst hp
      simp [List.isPrefixOf]
    · simp [firstOcc, he] at h
  | cons c cs ih =>
    by_cases hp : pat.isPrefixOf (c :: cs) = true
    · simp [firstOcc, hp] at h
      subst h
      simpa using hp
    · simp [firstOcc, hp, Option.map_eq_some'] at h
      obtain ⟨i', hi', rfl⟩ := h
      simpa using ih hi'

/-- Completeness of `firstOcc`: `none` means no occurrence at all. -/
theorem firstOcc_none {pat t : List Char} (h : firstOcc pat t = none) (i : Nat) :
    ¬ pat.isPrefixOf (t.drop i) = true := by
  induction t generalizing i with
  | nil =>
    intro hp
    have hp0 : pat = [] := by
      cases pat with
      | nil => rfl
      | cons a as => simp [List.isPrefixOf] at hp
    subst hp0
    simp [firstOcc] at h
  | cons c cs ih =>
    by_cases hp : pat.isPrefixOf (c :: cs) = true
    · simp [firstOcc, hp] at h
    · simp [firstOcc, hp, Option.map_eq_none'] at h
      cases i with
      | zero => simpa using hp
      | succ i' => simpa using ih h i'

/-- If `firstOcc` finds nothing, the pattern is not an infix. -/
theorem not_contains_of_firstOcc_none {pat s : List Char} (h : firstOcc pat s = none) :
    ¬ pat <:+: s := by
  intro hinf
  obtain ⟨u, v, rfl⟩ := hinf
  refine firstOcc_none h u.length ?_
  rw [List.append_assoc, List.drop_left]
  exact isPrefixOf_append_self pat v

/-- The closing tag has no border: no proper nonempty suffix of
`</config>` is also a prefix of it. -/
theorem closeTag_no_border :
    ∀ k, k < 9 → 1 ≤ k → (closeTag.drop k).isPrefixOf closeTag = false := by decide

/-- No occurrence of `</config>` can span the boundary in `s ++ </config>`
when `s` itself does not contain `</config>`: the tag is not a prefix of
`s ++ </config>` for nonempty such `s`. -/
theorem closeTag_no_span {s : List Char} (hs : s ≠ []) (hinf : ¬ closeTag <:+: s) :
    closeTag.isPrefixOf (s ++ closeTag) = false := by
  have hct : closeTag.length = 9 := rfl
  by_contra hcon
  rw [Bool.not_eq_false] at hcon
  obtain ⟨r, hr⟩ := (isPrefixOf_iff_append _ _).mp hcon
  by_cases h9 : closeTag.length ≤ s.length
  · apply hinf
    have htake : closeTag = s.take closeTag.length := by
      have hcg := congrArg (List.take closeTag.length) hr
      rwa [List.take_left, List.take_append_eq_append_take,
        Nat.sub_eq_zero_of_le h9, List.take_zero, List.append_nil] at hcg
    refine ⟨[], s.drop closeTag.length, ?_⟩
    rw [List.nil_append]
    nth_rewrite 1 [htake]
    exact List.take_append_drop _ _
  · push_neg at h9
    have hk1 : 1 ≤ s.length := by
      cases s with
      | nil => exact absurd rfl hs
      | cons a as => simp
    have hdrop := congrArg (List.drop s.length) hr
    rw [List.drop_left, List.drop_append_eq_append_drop,
      Nat.sub_eq_zero_of_le (Nat.le_of_lt h9), List.drop_zero] at hdrop
    have hpref : (closeTag.drop s.length).isPrefixOf closeTag = true :=
      (isPrefixOf_iff_append _ _).mpr ⟨r, hdrop⟩
    rw [closeTag_no_border s.length (hct ▸ h9) hk1] at hpref
    exact Bool.false_ne_true hpref

/-- In `s ++ </config>` with `s` free of the closing tag, the first
occurrence of `</config>` is exactly at index `s.length`. -/
theorem firstOcc_closeTag {s : List Char} (h : ¬ closeTag <:+: s) :
    firstOcc closeTag (s ++ closeTag) = some s.length := by
  induction s with
  | nil => rfl
  | cons c cs ih =>
    have h1 : ¬ closeTag <:+: cs := by
      intro hinf
      obtain ⟨u, v, huv⟩ := hinf
      exact h ⟨c :: u, v, by rw [List.cons_append, List.cons_append, huv]⟩
    have h2 : closeTag.isPrefixOf ((c :: cs) ++ closeTag) = false :=
      closeTag_no_span (by simp) h
    rw [List.cons_append] at h2 ⊢
    simp [firstOcc, h2, ih h1]

/-- A nonempty pattern put in front is found at index 0. -/
theorem firstOcc_self_append {pat : List Char} (hne : pat ≠ []) (x : List Char) :
    firstOcc pat (pat ++ x) = some 0 := by
  cases pat with
  | nil => exact absurd rfl hne
  | cons a as =>
    have h : (a :: as).isPrefixOf (a :: (as ++ x)) = true := by
      rw [← List.cons_append]
      exact isPrefixOf_append_self _ _
    rw [List.cons_append]
    simp [firstOcc, h]

/-- Claim C3: ConfigExtractor round-trips.  For every string `s` that
contains neither delimiter tag, extracting from `<config>` ++ s ++
`</config>` succeeds and returns `s` stripped of leading and trailing
whitespace. -/
theorem C3_roundtrip (s : List Char) (h1 : ¬ openTag <:+: s) (h2 : ¬ closeTag <:+: s) :
    parse_route_config (openTag ++ s ++ closeTag) = .ok (pyStrip s) := by
  rw [List.append_assoc]
  have hopen : firstOcc openTag (openTag ++ (s ++ closeTag)) = some 0 :=
    firstOcc_self_append (by decide) _
  have hdrop : (openTag ++ (s ++ closeTag)).drop (0 + openTag.length) = s ++ closeTag := by
    rw [Nat.zero_add, List.drop_left]
  simp only [parse_route_config, hopen, hdrop, firstOcc_closeTag h2, List.take_left]

/-- Witness for C3 at the concrete payload `<config> hi </config>`. -/
theorem C3_witness :
    parse_route_config (openTag ++ [' ', 'h', 'i', ' '] ++ closeTag) = .ok ['h', 'i'] := by
  rw [C3_roundtrip [' ', 'h', 'i', ' ']
    (not_contains_of_firstOcc_none (by decide))
    (not_contains_of_firstOcc_none (by decide))]
  rfl

/-- Claim C7: on any text in which no `<config>...</config>` tag pair
occurs, ConfigExtractor fails with the missing-tags error and never
returns a value. -/
theorem C7_missing_tags (t : List Char) (h : ∀ i, ¬ tagPairAt t i) :
    parse_route_config t =
      .error (.valueError "No <config></config> tags found in the output.") := by
  cases hfo : firstOcc openTag t with
  | none => simp [parse_route_config, hfo]
  | some i =>
    cases hfc : firstOcc closeTag (t.drop (i + openTag.length)) with
    | none => simp [parse_route_config, hfo, hfc]
    | some j =>
      exact absurd ⟨firstOcc_sound hfo, j, firstOcc_sound hfc⟩ (h i)

/-- If the opening tag occurs nowhere among the valid indices, no tag
pair occurs at all. -/
theorem no_pair_of_no_open {t : List Char}
    (h : ∀ i, i < t.length → openTag.isPrefixOf (t.drop i) = false) :
    ∀ i, ¬ tagPairAt t i := by
  intro i hpair
  obtain ⟨hocc, -⟩ := hpair
  simp only [occursAt] at hocc
  by_cases hi : i < t.length
  · rw [h i hi] at hocc
    exact Bool.false_ne_true hocc
  · push_neg at hi
    rw [List.drop_eq_nil_of_le hi] at hocc
    simp [openTag, List.isPrefixOf] at hocc

/-- Witness for C7 at the concrete text `hello`. -/
theorem C7_witness :
    parse_route_config ['h', 'e', 'l', 'l', 'o'] =
      .error (.valueError "No <config></config> tags found in the output.") :=
  C7_missing_tags _ (no_pair_of_no_open (by decide))

/-! ### Validator lemmas -/

/-- `missingKeys` evaluated through both membership results. -/
theorem missingKeys_eval (v : JValue) (b1 b2 : Bool)
    (h1 : pyContains "name" v = .ok b1) (h2 : pyContains "utterances" v = .ok b2) :
    missingKeys requiredKeys v =
      .ok (if b1 then (if b2 then [] else ["utterances"])
           else "name" :: (if b2 then [] else ["utterances"])) := by
  simp [missingKeys, requiredKeys, h1, h2]

/-- `missingKeys` propagates a raised membership error. -/
theorem missingKeys_err (v : JValue) (e : PyError) (h : pyContains "name" v = .error e) :
    missingKeys requiredKeys v = .error e := by
  simp [missingKeys, requiredKeys, h]

/-- An empty `missingKeys` result means both membership tests returned
true. -/
theorem missingKeys_nil_elim {v : JValue} (h : missingKeys requiredKeys v = .ok []) :
    pyContains "name" v = .ok true ∧ pyContains "utterances" v = .ok true := by
  cases hv1 : pyContains "name" v with
  | error e => rw [missingKeys_err v e hv1] at h; simp at h
  | ok b1 =>
    cases hv2 : pyContains "utterances" v with
    | error e =>
      have he : missingKeys requiredKeys v = .error e := by
        simp [missingKeys, requiredKeys, hv1, hv2]
      rw [he] at h
      simp at h
    | ok b2 =>
      rw [missingKeys_eval v b1 b2 hv1 hv2] at h
      cases b1 <;> cases b2 <;> simp_all

/-- `is_valid` on a single mapping returns the conjunction of the two
key-presence tests. -/
theorem is_valid_obj (kvs : List (String × JValue)) :
    is_valid (some (.obj kvs)) = .ok (hasKey kvs "name" && hasKey kvs "utterances") := by
  cases h1 : hasKey kvs "name" <;> cases h2 : hasKey kvs "utterances" <;>
    simp [is_valid, missingKeys, requiredKeys, pyContains, h1, h2]

/-- On a list of mappings the loop returns true exactly when every
mapping has both required keys. -/
theorem validateItems_obj (items : List (List (String × JValue))) :
    validateItems (items.map JValue.obj) = .ok true ↔
      ∀ kv ∈ items, hasKey kv "name" = true ∧ hasKey kv "utterances" = true := by
  induction items with
  | nil => simp [validateItems]
  | cons kv rest ih =>
    have hm := missingKeys_eval (.obj kv) (hasKey kv "name") (hasKey kv "utterances") rfl rfl
    cases h1 : hasKey kv "name" <;> cases h2 : hasKey kv "utterances" <;>
      rw [h1, h2] at hm <;> simp [validateItems, hm, h1, h2, ih]

/-- On a list of mappings the loop never raises: the result is a
boolean. -/
theorem validateItems_obj_total (items : List (List (String × JValue))) :
    validateItems (items.map JValue.obj) = .ok true ∨
      validateItems (items.map JValue.obj) = .ok false := by
  induction items with
  | nil => exact Or.inl rfl
  | cons kv rest ih =>
    have hm := missingKeys_eval (.obj kv) (hasKey kv "name") (hasKey kv "utterances") rfl rfl
    cases h1 : hasKey kv "name" <;> cases h2 : hasKey kv "utterances" <;>
      rw [h1, h2] at hm <;> simp [validateItems, hm] <;> exact ih

/-- Soundness of the list loop: a true result means both membership
tests passed on every element. -/
theorem validateItems_sound {items : List JValue} (h : validateItems items = .ok true) :
    ∀ x ∈ items, pyContains "name" x = .ok true ∧ pyContains "utterances" x = .ok true := by
  induction items with
  | nil => simp
  | cons item rest ih =>
    cases hm : missingKeys requiredKeys item with
    | error e =>
      simp only [validateItems, hm] at h
      exact absurd h (by simp)
    | ok mk =>
      simp only [validateItems, hm] at h
      by_cases hmk : mk.isEmpty = true
      · rw [if_pos hmk] at h
        have hnil : mk = [] := by simpa [List.isEmpty_iff] using hmk
        subst hnil
        intro x hx
        rcases List.mem_cons.mp hx with rfl | hx'
        · exact missingKeys_nil_elim hm
        · exact ih h x hx'
      · rw [if_neg hmk] at h
        simp at h

/-- Soundness of the single-value branch of `is_valid`. -/
theorem single_sound {v : JValue}
    (h : (match missingKeys requiredKeys v with
          | .error e => (.error e : Except PyError Bool)
          | .ok mk => .ok mk.isEmpty) = .ok true) :
    pyContains "name" v = .ok true ∧ pyContains "utterances" v = .ok true := by
  cases hm : missingKeys requiredKeys v with
  | error e => rw [hm] at h; simp at h
  | ok mk =>
    rw [hm] at h
    simp at h
    have hnil : mk = [] := by simpa [List.isEmpty_iff] using h
    subst hnil
    exact missingKeys_nil_elim hm

/-- Claim C1 (amended): for mapping-shaped payloads the invariant holds
— a single mapping is accepted iff it has both `name` and `utterances`,
a list of mappings is accepted iff every element has both — and every
payload the validator rejects is turned into an error by both
`RouteConfig.from_file` and the synthesis gate before any Route is
constructed.  (The unamended universal shape claim is refuted by
`C1_counterexample`.) -/
theorem C1_accepted_payloads (kvs : List (String × JValue))
    (items : List (List (String × JValue))) (v : JValue) (ext : String) :
    (is_valid (some (.obj kvs)) = .ok true ↔
      hasKey kvs "name" = true ∧ hasKey kvs "utterances" = true) ∧
    (is_valid (some (.arr (items.map JValue.obj))) = .ok true ↔
      ∀ kv ∈ items, hasKey kv "name" = true ∧ hasKey kv "utterances" = true) ∧
    (is_valid (some v) = .ok false →
      ∃ e, RouteConfig.from_file ext (some v) = .error e) ∧
    (is_valid (some v) = .ok false →
      acceptConfig (some v) = .error (.exception "No config generated")) := by
  refine ⟨?_, ?_, ?_, ?_⟩
  · rw [is_valid_obj]
    cases h1 : hasKey kvs "name" <;> cases h2 : hasKey kvs "utterances" <;> simp [h1, h2]
  · simpa [is_valid] using validateItems_obj items
  · intro hf
    unfold RouteConfig.from_file
    split_ifs with hj hy
    · exact ⟨.exception "Invalid config JSON or YAML", by simp [fromFileParsed, hf]⟩
    · exact ⟨.exception "Invalid config JSON or YAML", by simp [fromFileParsed, hf]⟩
    · exact ⟨.valueError "Unsupported file type. Only .json and .yaml are supported", rfl⟩
  · intro hf
    simp [acceptConfig, hf]

/-- Counterexample to claim C1 as stated: the JSON payload
`"name utterances"` parses to a string — neither a mapping nor a list
of mappings — yet the validator accepts it, because Python's `in`
performs a substring test on strings. -/
theorem C1_counterexample :
    is_valid (some (.str "name utterances")) = .ok true ∧
    isMappingShape (.str "name utterances") = false := ⟨rfl, rfl⟩

/-- Witness for C1 at the empty mapping, which the validator rejects and
the synthesis gate turns into an error. -/
theorem C1_witness :
    acceptConfig (some (.obj [])) = .error (.exception "No config generated") :=
  (C1_accepted_payloads [] [] (.obj []) ".json").2.2.2 rfl

/-- Claim C2 (amended): the validator rejects `{"name": "x"}`, accepts
`{"name": "x", "utterances": ["a"]}`, rejects any list of mappings in
which some mapping lacks `name`, and returns valid only when Python
membership reports both required keys for the value (or for every list
element).  (For a list element that is not a mapping, membership can
succeed without keys being present: see `C2_counterexample`.) -/
theorem C2_validator_results :
    is_valid (some (.obj [("name", .str "x")])) = .ok false ∧
    is_valid (some (.obj [("name", .str "x"), ("utterances", .arr [.str "a"])])) = .ok true ∧
    (∀ items : List (List (String × JValue)),
      (∃ kv ∈ items, hasKey kv "name" = false) →
      is_valid (some (.arr (items.map JValue.obj))) = .ok false) ∧
    (∀ v : JValue, is_valid (some v) = .ok true → requiredPresent v) := by
  refine ⟨rfl, rfl, ?_, ?_⟩
  · intro items hmiss
    rcases validateItems_obj_total items with h | h
    · exfalso
      obtain ⟨kv, hkv, hfalse⟩ := hmiss
      have := ((validateItems_obj items).mp h kv hkv).1
      rw [hfalse] at this
      exact Bool.false_ne_true this
    · simpa [is_valid] using h
  · intro v h
    cases v with
    | arr items =>
      simp only [requiredPresent]
      exact validateItems_sound (by simpa [is_valid] using h)
    | obj kvs => exact single_sound (by simpa [is_valid] using h)
    | str s => exact single_sound (by simpa [is_valid] using h)
    | num n => exact single_sound (by simpa [is_valid] using h)
    | bool b => exact single_sound (by simpa [is_valid] using h)
    | null => exact single_sound (by simpa [is_valid] using h)

/-- Counterexample to claim C2 as stated: the list `["name utterances"]`
has an element with no keys at all (it is a string, not a mapping), yet
the validator returns valid, because `"name" in item` is a substring
test on a string element. -/
theorem C2_counterexample :
    is_valid (some (.arr [.str "name utterances"])) = .ok true ∧
    isMapping (.str "name utterances") = false := ⟨rfl, rfl⟩

/-- Witness for C2: a list whose only mapping lacks `name` is rejected,
and an accepted mapping indeed passes both membership tests. -/
theorem C2_witness :
    is_valid (some (.arr (List.map JValue.obj [[("utterances", JValue.null)]]))) = .ok false ∧
    requiredPresent (.obj [("name", .str "x"), ("utterances", .arr [.str "a"])]) := by
  constructor
  · exact C2_validator_results.2.2.1 [[("utterances", JValue.null)]]
      ⟨[("utterances", JValue.null)], by simp, rfl⟩
  · exact C2_validator_results.2.2.2 _ rfl

/-- Claim C4 (amended): `is_valid` returns invalid — without raising —
on every string that fails to parse as JSON, and it terminates normally
with a boolean whenever the parsed value is a mapping or a list of
mappings.  (For other parsed shapes it can raise `TypeError`: see
`C4_counterexample`.) -/
theorem C4_no_raise_on_mappings :
    is_valid none = .ok false ∧
    (∀ kvs : List (String × JValue), ∃ b, is_valid (some (.obj kvs)) = .ok b) ∧
    (∀ items : List (List (String × JValue)), ∃ b,
      is_valid (some (.arr (items.map JValue.obj))) = .ok b) := by
  refine ⟨rfl, ?_, ?_⟩
  · intro kvs
    exact ⟨_, is_valid_obj kvs⟩
  · intro items
    rcases validateItems_obj_total items with h | h
    · exact ⟨true, by simpa [is_valid] using h⟩
    · exact ⟨false, by simpa [is_valid] using h⟩

/-- Counterexample to claim C4 as stated: the input string `"5"` parses
to the number 5, and `"name" in 5` raises `TypeError`, which `is_valid`
does not catch — so `is_valid` does not return a boolean for every
input string. -/
theorem C4_counterexample : is_valid (some (.num 5)) = .error .typeError := rfl

/-! ### Persistence and CRUD -/

/-- Parsing back a serialized utterance list recovers it. -/
theorem mapExcept_asStr (us : List String) :
    mapExcept asStr (us.map JValue.str) = .ok us := by
  induction us with
  | nil => rfl
  | cons u rest ih => simp [mapExcept, asStr, ih]

/-- `Route.from_dict` inverts `Route.to_dict`. -/
theorem fromDict_toDict (r : Route) : Route.fromDict r.toDict = .ok r := by
  obtain ⟨nm, us, d⟩ := r
  cases d <;> simp [Route.toDict, Route.fromDict, List.lookup, mapExcept_asStr]

/-- Every serialized route dict passes validation. -/
theorem validateItems_toDict (rs : List Route) :
    validateItems (rs.map Route.toDict) = .ok true := by
  induction rs with
  | nil => rfl
  | cons r rest ih =>
    have h : missingKeys requiredKeys r.toDict = .ok [] := by
      simp [Route.toDict, missingKeys, requiredKeys, pyContains, hasKey]
    simp [validateItems, h, ih]

/-- Reconstructing every route from its serialized dict recovers the
list. -/
theorem mapExcept_fromDict (rs : List Route) :
    mapExcept Route.fromDict (rs.map Route.toDict) = .ok rs := by
  induction rs with
  | nil => rfl
  | cons r rest ih => simp [mapExcept, fromDict_toDict, ih]

/-- Claim C6: persistence round-trip.  For every RouteConfig, saving to
a `.json` file and loading the written content back yields a
RouteConfig with exactly the same routes (same `name`, `utterances`,
`description`, in order); likewise via `.yaml`. -/
theorem C6_roundtrip (rs : List Route) :
    (∃ content, RouteConfig.to_file ⟨rs⟩ ".json" = .ok content ∧
      RouteConfig.from_file ".json" (some content) = .ok ⟨rs⟩) ∧
    (∃ content, RouteConfig.to_file ⟨rs⟩ ".yaml" = .ok content ∧
      RouteConfig.from_file ".yaml" (some content) = .ok ⟨rs⟩) := by
  have hv : is_valid (some (.arr (rs.map Route.toDict))) = .ok true := by
    simpa [is_valid] using validateItems_toDict rs
  have hff : fromFileParsed (some (.arr (rs.map Route.toDict))) = .ok ⟨rs⟩ := by
    simp [fromFileParsed, hv, pyIter, mapExcept_fromDict]
  constructor
  · exact ⟨.arr (rs.map Route.toDict), by simp [RouteConfig.to_file],
      by simp [RouteConfig.from_file, hff]⟩
  · exact ⟨.arr (rs.map Route.toDict), by simp [RouteConfig.to_file],
      by simp [RouteConfig.from_file, hff]⟩

/-- Name membership in the route list agrees with existential match. -/
theorem contains_name_iff (rs : List Route) (nm : String) :
    (rs.map Route.name).contains nm = true ↔ ∃ r ∈ rs, r.name = nm := by
  induction rs with
  | nil => simp
  | cons r rest ih =>
    simp only [List.map_cons, List.contains_cons, Bool.or_eq_true, beq_iff_eq, ih,
      List.mem_cons, exists_eq_or_imp]
    constructor
    · rintro (h | h)
      · exact Or.inl h.symm
      · exact Or.inr h
    · rintro (h | h)
      · exact Or.inl h.symm
      · exact Or.inr h

/-- `remove` on an absent name leaves the collection unchanged. -/
theorem remove_absent {rs : List Route} {nm : String}
    (hc : (rs.map Route.name).contains nm = false) :
    RouteConfig.remove ⟨rs⟩ nm = ⟨rs⟩ := by
  have hdef : RouteConfig.remove ⟨rs⟩ nm =
      if (rs.map Route.name).contains nm = true then
        ⟨rs.filter (fun r => r.name != nm)⟩ else ⟨rs⟩ := rfl
  rw [hdef, hc]
  rfl

/-- `remove` on a present name filters the collection. -/
theorem remove_present {rs : List Route} {nm : String}
    (hc : (rs.map Route.name).contains nm = true) :
    RouteConfig.remove ⟨rs⟩ nm = ⟨rs.filter (fun r => r.name != nm)⟩ := by
  have hdef : RouteConfig.remove ⟨rs⟩ nm =
      if (rs.map Route.name).contains nm = true then
        ⟨rs.filter (fun r => r.name != nm)⟩ else ⟨rs⟩ := rfl
  rw [hdef, hc]
  rfl

/-- Claim C8: `get` on an absent name fails with the route-not-found
error while `remove` on an absent name returns the collection
unchanged without raising; on a present name `get` returns the first
match and `remove` removes exactly the routes carrying that name. -/
theorem C8_get_remove (rs : List Route) (nm : String) :
    ((∀ r ∈ rs, r.name ≠ nm) →
      RouteConfig.get ⟨rs⟩ nm =
        .error (.exception ("Route \x60" ++ nm ++ "\x60 not found")) ∧
      RouteConfig.remove ⟨rs⟩ nm = ⟨rs⟩) ∧
    (∀ i (h : i < rs.length), (rs.get ⟨i, h⟩).name = nm →
      (∀ j (hj : j < i), (rs.get ⟨j, Nat.lt_trans hj h⟩).name ≠ nm) →
      RouteConfig.get ⟨rs⟩ nm = .ok (rs.get ⟨i, h⟩)) ∧
    ((∃ r ∈ rs, r.name = nm) →
      RouteConfig.remove ⟨rs⟩ nm = ⟨rs.filter (fun r => r.name != nm)⟩) := by
  refine ⟨?_, ?_, ?_⟩
  · intro habs
    constructor
    · show getLoop rs nm = _
      induction rs with
      | nil => rfl
      | cons r rest ih =>
        have hr : (r.name == nm) = false := by
          simpa using habs r (List.mem_cons_self r rest)
        simp only [getLoop, hr, Bool.false_eq_true, if_false]
        exact ih (fun r' hr' => habs r' (List.mem_cons_of_mem r hr'))
    · have hc : (rs.map Route.name).contains nm = false := by
        rw [← Bool.not_eq_true, contains_name_iff]
        rintro ⟨r, hr, hname⟩
        exact habs r hr hname
      exact remove_absent hc
  · intro i h hname hprev
    show getLoop rs nm = _
    induction rs generalizing i with
    | nil => exact absurd h (Nat.not_lt_zero i)
    | cons r rest ih =>
      cases i with
      | zero =>
        have hr : (r.name == nm) = true := by simpa using hname
        simp [getLoop, hr]
      | succ i' =>
        have hr : (r.name == nm) = false := by
          simpa using hprev 0 (Nat.succ_pos i')
        simp only [getLoop, hr, Bool.false_eq_true, if_false]
        have h' : i' < rest.length := Nat.lt_of_succ_lt_succ h
        have := ih i' h' (by simpa using hname)
          (fun j hj => by simpa using hprev (j + 1) (Nat.succ_lt_succ hj))
        simpa using this
  · intro hex
    have hc : (rs.map Route.name).contains nm = true := (contains_name_iff rs nm).mpr hex
    exact remove_present hc

/-- Witness for C8 on a three-route collection with a duplicated name. -/
theorem C8_witness :
    RouteConfig.get ⟨[⟨"a", ["u1"], none⟩, ⟨"b", [], none⟩, ⟨"a", ["u2"], some "d"⟩]⟩
      "missing" = .error (.exception ("Route \x60" ++ "missing" ++ "\x60 not found")) ∧
    RouteConfig.remove ⟨[⟨"a", ["u1"], none⟩, ⟨"b", [], none⟩, ⟨"a", ["u2"], some "d"⟩]⟩
      "missing" = ⟨[⟨"a", ["u1"], none⟩, ⟨"b", [], none⟩, ⟨"a", ["u2"], some "d"⟩]⟩ ∧
    RouteConfig.get ⟨[⟨"a", ["u1"], none⟩, ⟨"b", [], none⟩, ⟨"a", ["u2"], some "d"⟩]⟩
      "a" = .ok ⟨"a", ["u1"], none⟩ ∧
    RouteConfig.remove ⟨[⟨"a", ["u1"], none⟩, ⟨"b", [], none⟩, ⟨"a", ["u2"], some "d"⟩]⟩
      "a" = ⟨[⟨"b", [], none⟩]⟩ := by
  refine ⟨?_, ?_, ?_, ?_⟩
  · exact ((C8_get_remove _ "missing").1 (by decide)).1
  · exact ((C8_get_remove _ "missing").1 (by decide)).2
  · exact (C8_get_remove _ "a").2.1 0 (by decide) rfl
      (fun j hj => absurd hj (Nat.not_lt_zero j))
  · exact (C8_get_remove _ "a").2.2 ⟨⟨"a", ["u1"], none⟩, by simp, rfl⟩

/-- Claim C9: loading from, or saving to, a path whose extension is not
`.json`, `.yaml` or `.yml` fails with the unsupported-file-type error,
whatever the content or the routes. -/
theorem C9_unsupported_extension (ext : String)
    (h1 : ext ≠ ".json") (h2 : ext ≠ ".yaml") (h3 : ext ≠ ".yml") :
    (∀ parsed, RouteConfig.from_file ext parsed =
      .error (.valueError "Unsupported file type. Only .json and .yaml are supported")) ∧
    (∀ rc : RouteConfig, rc.to_file ext =
      .error (.valueError "Unsupported file type. Only .json and .yaml are supported")) := by
  constructor
  · intro parsed
    simp [RouteConfig.from_file, h1, h2, h3]
  · intro rc
    simp [RouteConfig.to_file, h1, h2, h3]

/-- Witness for C9 at the extension `.txt`. -/
theorem C9_witness :
    RouteConfig.from_file ".txt" (some (.arr [])) =
      .error (.valueError "Unsupported file type. Only .json and .yaml are supported") ∧
    RouteConfig.to_file ⟨[]⟩ ".txt" =
      .error (.valueError "Unsupported file type. Only .json and .yaml are supported") :=
  ⟨(C9_unsupported_extension ".txt" (by decide) (by decide) (by decide)).1 _,
   (C9_unsupported_extension ".txt" (by decide) (by decide) (by decide)).2 _⟩

/-- Claim C10: a file whose top-level value is a single mapping with
both required keys passes validation, but `from_file` then iterates
over the mapping's keys — each a string — and `Route.from_dict` on a
string raises `TypeError`, so the call raises instead of returning a
one-route RouteConfig. -/
theorem C10_single_mapping_raises (kvs : List (String × JValue)) (ext : String)
    (h1 : hasKey kvs "name" = true) (h2 : hasKey kvs "utterances" = true)
    (hext : ext = ".json" ∨ ext = ".yaml" ∨ ext = ".yml") :
    is_valid (some (.obj kvs)) = .ok true ∧
    RouteConfig.from_file ext (some (.obj kvs)) = .error .typeError := by
  have hv : is_valid (some (.obj kvs)) = .ok true := by
    rw [is_valid_obj, h1, h2]
    rfl
  refine ⟨hv, ?_⟩
  have hff : fromFileParsed (some (.obj kvs)) = .error .typeError := by
    obtain ⟨kv, rest, rfl⟩ : ∃ kv rest, kvs = kv :: rest := by
      cases kvs with
      | nil => simp [hasKey] at h1
      | cons kv rest => exact ⟨kv, rest, rfl⟩
    simp [fromFileParsed, hv, pyIter, mapExcept, Route.fromDict]
  rcases hext with h | h | h <;> simp [RouteConfig.from_file, h, hff]

/-- Witness for C10 at `{"name": "x", "utterances": ["a"]}` in a
`.json` file. -/
theorem C10_witness :
    RouteConfig.from_file ".json"
      (some (.obj [("name", .str "x"), ("utterances", .arr [.str "a"])])) =
      .error .typeError :=
  (C10_single_mapping_raises [("name", .str "x"), ("utterances", .arr [.str "a"])]
    ".json" rfl rfl (Or.inl rfl)).2

/-! ### Schema signature occurrences -/

/-- A name occurs at the junction point when its rendered entry starts
there. -/
theorem occursAt_of_append {nm part : List Char} (pre : List Char) (rest : List Char)
    (h : ∃ r, nm ++ r = part) :
    occursAt nm (pre ++ (part ++ rest)) pre.length := by
  obtain ⟨r, rfl⟩ := h
  simp only [occursAt]
  rw [List.drop_left, List.append_assoc]
  exact isPrefixOf_append_self nm (r ++ rest)

/-- In a separator-joined rendering embedded in any context, every name
that begins its own entry occurs, at strictly increasing positions, in
entry order. -/
theorem joinSep_occurrences (sep : List Char) (hsep : sep ≠ [])
    {names parts : List (List Char)}
    (hf : List.Forall₂ (fun nm pt => ∃ r, nm ++ r = pt) names parts) :
    ∀ pre post : List Char, ∃ ps : List Nat,
      List.Pairwise (· < ·) ps ∧
      (∀ p ∈ ps, pre.length ≤ p) ∧
      List.Forall₂ (fun nm p => occursAt nm (pre ++ joinSep sep parts ++ post) p) names ps := by
  have hs1 : 1 ≤ sep.length := by
    cases sep with
    | nil => exact absurd rfl hsep
    | cons a as => simp
  induction hf with
  | nil =>
    intro pre post
    exact ⟨[], by simp, by simp, List.Forall₂.nil⟩
  | @cons nm pt names' parts' hhead htail ih =>
    intro pre post
    cases parts' with
    | nil =>
      cases htail
      refine ⟨[pre.length], by simp, by simp, List.Forall₂.cons ?_ List.Forall₂.nil⟩
      have hJ : joinSep sep [pt] = pt := rfl
      rw [hJ, List.append_assoc]
      exact occursAt_of_append pre post hhead
    | cons q rest' =>
      obtain ⟨ps', hpw, hlb, hocc⟩ := ih (pre ++ pt ++ sep) post
      have hlen : pre.length < (pre ++ pt ++ sep).length := by
        simp only [List.length_append]
        omega
      refine ⟨pre.length :: ps', ?_, ?_, ?_⟩
      · exact List.Pairwise.cons (fun p hp => Nat.lt_of_lt_of_le hlen (hlb p hp)) hpw
      · intro p hp
        rcases List.mem_cons.mp hp with rfl | hp'
        · exact Nat.le_refl _
        · exact Nat.le_trans (Nat.le_of_lt hlen) (hlb p hp')
      · have hJ : joinSep sep (pt :: q :: rest') = pt ++ sep ++ joinSep sep (q :: rest') := rfl
        refine List.Forall₂.cons ?_ ?_
        · rw [hJ]
          have hgoal := occursAt_of_append pre (sep ++ (joinSep sep (q :: rest') ++ post)) hhead
          simpa only [List.append_assoc] using hgoal
        · refine List.Forall₂.imp ?_ hocc
          intro a b hab
          simpa only [hJ, List.append_assoc] using hab

/-- Every rendered signature entry starts with its field name. -/
theorem signaturePart_name (f : FieldInfo) : ∃ r, f.name ++ r = signaturePart f := by
  cases hd : f.defaultRepr with
  | none =>
    exact ⟨(": ").data ++ f.typeName, by simp [signaturePart, hd, List.append_assoc]⟩
  | some d =>
    exact ⟨(": ").data ++ f.typeName ++ ((" = ").data ++ d),
      by simp [signaturePart, hd, List.append_assoc]⟩

/-- The names/entries correspondence for a field list. -/
theorem forall₂_name_part (fs : List FieldInfo) :
    List.Forall₂ (fun nm pt => ∃ r, nm ++ r = pt)
      (fs.map FieldInfo.name) (fs.map signaturePart) := by
  induction fs with
  | nil => exact List.Forall₂.nil
  | cons f rest ih => exact List.Forall₂.cons (signaturePart_name f) ih

/-- Claim C5 (amended): for every structured-data model and every
callable with at least one declared parameter, the schema's `signature`
string contains every declared parameter name at least once, with
occurrence positions that are strictly increasing in declaration order.
(The unamended exactly-once count is refuted by `C5_counterexample`:
a name can recur inside a type name.) -/
theorem C5_signature_names (item : SchemaItem) (hne : 1 ≤ item.params.length) :
    ∃ ps : List Nat, List.Pairwise (· < ·) ps ∧
      List.Forall₂ (fun nm p => occursAt nm (getSchemaSignature item) p)
        (item.params.map FieldInfo.name) ps := by
  cases item with
  | model fields =>
    obtain ⟨ps, hpw, -, hocc⟩ :=
      joinSep_occurrences ((", ").data) (by decide) (forall₂_name_part fields)
        (("(").data) ((") -> str").data)
    refine ⟨ps, hpw, ?_⟩
    refine List.Forall₂.imp ?_ hocc
    intro a b hab
    simpa only [getSchemaSignature, modelSignature] using hab
  | callable params ret =>
    cases ret with
    | none =>
      obtain ⟨ps, hpw, -, hocc⟩ :=
        joinSep_occurrences ((", ").data) (by decide) (forall₂_name_part params)
          (("(").data) (((")").data ++ ([] : List Char)))
      refine ⟨ps, hpw, ?_⟩
      refine List.Forall₂.imp ?_ hocc
      intro a b hab
      simpa only [getSchemaSignature, callableSignature, List.append_assoc] using hab
    | some r =>
      obtain ⟨ps, hpw, -, hocc⟩ :=
        joinSep_occurrences ((", ").data) (by decide) (forall₂_name_part params)
          (("(").data) (((")").data ++ ((" -> ").data ++ r)))
      refine ⟨ps, hpw, ?_⟩
      refine List.Forall₂.imp ?_ hocc
      intro a b hab
      simpa only [getSchemaSignature, callableSignature, List.append_assoc] using hab

/-- Witness for C5 on a one-field model `city: str`. -/
theorem C5_witness :
    1 ≤ (SchemaItem.model [⟨['c', 'i', 't', 'y'], ['s', 't', 'r'], none⟩]).params.length ∧
    ∃ ps : List Nat, List.Pairwise (· < ·) ps ∧
      List.Forall₂
        (fun nm p =>
          occursAt nm
            (getSchemaSignature (SchemaItem.model [⟨['c', 'i', 't', 'y'], ['s', 't', 'r'], none⟩]))
            p)
        ((SchemaItem.model [⟨['c', 'i', 't', 'y'], ['s', 't', 'r'], none⟩]).params.map
          FieldInfo.name) ps :=
  ⟨by decide, C5_signature_names _ (by decide)⟩

/-- Counterexample to claim C5 as stated: a model with the single field
`n: int` yields the signature `(n: int) -> str`, in which the parameter
name `n` occurs twice as a substring (once as the field name and once
inside the type name `int`), not exactly once. -/
theorem C5_counterexample :
    countOcc ['n'] (getSchemaSignature (.model [⟨['n'], ['i', 'n', 't'], none⟩])) ≠ 1 := by
  decide
